import Mathlib

/-!
Verification of the Program lifecycle and target-metadata core of drgn
(src/libdrgn/program.h) against its specification.

The header defines the data model (struct vmcoreinfo, struct file_mapping,
struct drgn_cleanup, struct drgn_program) and one inline function
(drgn_program_word_mask); the remaining operations are declared there with
documented behavior and implemented outside the header, so they are embedded
from the specification text, as the doc comments below record. Machine
integers are embedded as Nat; function pointers and opaque handles are
embedded as numeric identifiers, since the code only ever compares them for
identity; the intrusive next-linked cleanup chain is embedded as a list whose
head is the most recently registered entry.
-/

set_option maxRecDepth 8192

namespace Drgn

/-- UINT32_MAX from the C standard library: the value drgn_program_word_mask
returns for every word size other than 8. -/
def UINT32_MAX : Nat := 2 ^ 32 - 1

/-- UINT64_MAX from the C standard library: the value drgn_program_word_mask
returns for word size 8. -/
def UINT64_MAX : Nat := 2 ^ 64 - 1

/-- Size in bytes of the fixed osrelease array of struct vmcoreinfo
(char osrelease[128], program.h line 32). -/
def OSRELEASE_SIZE : Nat := 128

/-- The important parts of the VMCOREINFO note of a Linux kernel core
(struct vmcoreinfo, program.h lines 30-41). The fixed 128-byte character
array is embedded as a character list; claim C8 bounds the stored length. -/
structure vmcoreinfo where
  osrelease : List Char
  kaslr_offset : Nat
deriving DecidableEq, Repr

/-- An ELF file which is mapped into a program (struct file_mapping,
program.h lines 49-63). The Elf handle is an opaque identifier here. The C
field named end is called end_addr because end is reserved in Lean; it is one
byte after the last virtual address, so the range is half-open. -/
structure file_mapping where
  path : String
  elf : Nat
  start : Nat
  end_addr : Nat
  file_offset : Nat
deriving DecidableEq, Repr

/-- One entry of the cleanup chain (struct drgn_cleanup, program.h lines
65-69): a callback pointer and its argument. The next link of the intrusive
list is represented by the tail of the containing list. -/
structure drgn_cleanup where
  cb : Nat
  arg : Nat
deriving DecidableEq, Repr

/-- The anonymous union inside struct drgn_program (program.h lines 76-82):
either the vmcoreinfo of a kernel target or the mapping collection of a
userspace target. Embedded as a sum type, the tagged-union reading the
specification gives it; num_mappings is the length of the list. -/
inductive target_metadata where
  | kernelInfo (info : vmcoreinfo)
  | processMappings (mappings : List file_mapping)
deriving DecidableEq, Repr

/-- Whether a metadata value is the kernel variant. -/
def target_metadata.isKernelInfo : target_metadata → Bool
  | .kernelInfo _ => true
  | .processMappings _ => false

/-- Whether a metadata value is the userspace variant. -/
def target_metadata.isProcessMappings : target_metadata → Bool
  | .kernelInfo _ => false
  | .processMappings _ => true

/-- struct drgn_program (program.h lines 71-86). flags embeds enum
drgn_program_flags, which is declared outside this header, as a bit set whose
bit 0 is the kernel target-kind bit described by the specification.
word_size is carried as a field: the accessor drgn_program_word_size is
declared outside this header and the specification fixes it for the life of
the program. -/
structure drgn_program where
  reader : Nat
  tindex : Nat
  sindex : Nat
  metadata : target_metadata
  cleanup : List drgn_cleanup
  flags : Nat
  little_endian : Bool
  word_size : Nat
deriving DecidableEq, Repr

/-- Modelled from the spec: drgn_program_word_size returns the byte width of
a target machine word, fixed for the life of the program (the declaration
lives outside program.h). -/
def drgn_program_word_size (prog : drgn_program) : Nat :=
  prog.word_size

/-- Return the maximum word value for a program (drgn_program_word_mask,
program.h lines 180-183): UINT64_MAX when the word size is 8, UINT32_MAX
otherwise. -/
def drgn_program_word_mask (prog : drgn_program) : Nat :=
  if drgn_program_word_size prog == 8 then UINT64_MAX else UINT32_MAX

/-- Modelled from the spec: the target-kind bit of flags that marks a kernel
target (enum drgn_program_flags is declared outside program.h). -/
def drgn_program_is_kernel (prog : drgn_program) : Bool :=
  prog.flags.testBit 0

/-- Modelled from the spec: a well-formed program stores exactly the metadata
variant selected by its target-kind flag. -/
def wf_metadata (prog : drgn_program) : Prop :=
  prog.metadata.isKernelInfo = drgn_program_is_kernel prog

instance (prog : drgn_program) : Decidable (wf_metadata prog) := by
  unfold wf_metadata
  infer_instance

/-- Modelled from the spec: drgn_program_add_cleanup (declared program.h
lines 124-125, implemented outside the header) pushes a new chain entry whose
next link is the previous chain head. The embedding covers the successful
registration path; allocation exhaustion is outside the embedded state. -/
def drgn_program_add_cleanup (prog : drgn_program) (cb arg : Nat) :
    drgn_program :=
  { prog with cleanup := ⟨cb, arg⟩ :: prog.cleanup }

/-- Modelled from the spec: the chain walk of drgn_program_remove_cleanup —
scan from the most recent entry, unlink the first entry whose cb and arg both
match, and report whether one was found. -/
def remove_cleanup_chain : List drgn_cleanup → Nat → Nat →
    Bool × List drgn_cleanup
  | [], _, _ => (false, [])
  | c :: rest, cb, arg =>
    if c.cb == cb && c.arg == arg then
      (true, rest)
    else
      let r := remove_cleanup_chain rest cb arg
      (r.1, c :: r.2)

/-- Modelled from the spec: drgn_program_remove_cleanup (declared program.h
lines 137-138, implemented outside the header) removes the most recently
added callback with the given cb and arg, returning true exactly when one was
present. -/
def drgn_program_remove_cleanup (prog : drgn_program) (cb arg : Nat) :
    Bool × drgn_program :=
  let r := remove_cleanup_chain prog.cleanup cb arg
  (r.1, { prog with cleanup := r.2 })

/-- Modelled from the spec: the chain walk of drgn_program_deinit — entries
are executed front to back, most recently registered first; the result is the
trace of invoked entries in invocation order. -/
def run_all_and_clear_trace : List drgn_cleanup → List drgn_cleanup
  | [] => []
  | c :: rest => c :: run_all_and_clear_trace rest

/-- Modelled from the spec: drgn_program_deinit (declared program.h line 114,
implemented outside the header) runs the cleanup chain once in reverse
registration order and clears it; the first component is the trace of invoked
entries and the second the program afterward. -/
def drgn_program_deinit (prog : drgn_program) :
    List drgn_cleanup × drgn_program :=
  (run_all_and_clear_trace prog.cleanup, { prog with cleanup := [] })

/-- Register a whole sequence of cleanups in order, earliest first. -/
def add_cleanups (prog : drgn_program) : List (Nat × Nat) → drgn_program
  | [] => prog
  | r :: rest => add_cleanups (drgn_program_add_cleanup prog r.1 r.2) rest

/-- Modelled from the spec: mapping lookup by address over the mapping
collection — return the path and in-mapping offset of the mapping whose
half-open range holds the address, or none when the address falls in no
mapping. -/
def find_mapping : List file_mapping → Nat → Option (String × Nat)
  | [], _ => none
  | m :: rest, addr =>
    if m.start ≤ addr ∧ addr < m.end_addr then
      some (m.path, addr - m.start)
    else
      find_mapping rest addr

/-- Modelled from the spec: the exposed mapping lookup of a program — valid
for userspace targets, whose metadata carries the mapping collection. -/
def drgn_program_find_mapping (prog : drgn_program) (addr : Nat) :
    Option (String × Nat) :=
  match prog.metadata with
  | .processMappings mappings => find_mapping mappings addr
  | .kernelInfo _ => none

/-- Modelled from the spec: the VMCOREINFO reader stores osrelease into the
fixed OSRELEASE_SIZE buffer of struct vmcoreinfo, truncating a longer value
and never writing past the end of the buffer (the reading code is outside
program.h). -/
def store_osrelease (s : List Char) : List Char :=
  s.take OSRELEASE_SIZE

/-- Modelled from the spec: one step of an initializer — either a successful
acquisition that registers a cleanup entry for the acquired resource, or a
failing step carrying an error identifier. -/
inductive init_step where
  | acquire (c : drgn_cleanup)
  | fail (err : Nat)
deriving DecidableEq, Repr

/-- Modelled from the spec: the resources an initializer populates the
program with on success — reader, type index, symbol index, the metadata
variant of the target kind, flags, endianness and word size. -/
structure init_resources where
  reader : Nat
  tindex : Nat
  sindex : Nat
  metadata : target_metadata
  flags : Nat
  little_endian : Bool
  word_size : Nat
deriving DecidableEq, Repr

/-- Modelled from the spec: the outcome of an initializer — a fully populated
program, or the original error together with the trace of cleanup entries run
while unwinding. -/
inductive init_outcome where
  | success (prog : drgn_program)
  | failure (err : Nat) (unwind : List drgn_cleanup)
deriving DecidableEq, Repr

/-- Modelled from the spec: the shared skeleton of the four initializers —
walk the acquisition steps, registering a cleanup entry after each success;
at the first failing step run the chain built so far and propagate the error;
when every step succeeds return the fully populated program. -/
def run_init_steps (res : init_resources) (chain : List drgn_cleanup) :
    List init_step → init_outcome
  | [] => .success
      { reader := res.reader, tindex := res.tindex, sindex := res.sindex,
        metadata := res.metadata, cleanup := chain, flags := res.flags,
        little_endian := res.little_endian, word_size := res.word_size }
  | .acquire c :: rest => run_init_steps res (c :: chain) rest
  | .fail e :: _ => .failure e (run_all_and_clear_trace chain)

/-- Modelled from the spec: an initializer run from an empty cleanup chain. -/
def drgn_program_init_generic (res : init_resources)
    (steps : List init_step) : init_outcome :=
  run_init_steps res [] steps

/-- The cleanup entries of the successful acquisitions of a step list, in
acquisition order. -/
def acquired : List init_step → List drgn_cleanup
  | [] => []
  | .acquire c :: rest => c :: acquired rest
  | .fail _ :: rest => acquired rest

/-- A userspace mock program over word size 4, used by witnesses. -/
def sampleProgram4 : drgn_program :=
  { reader := 0, tindex := 0, sindex := 0,
    metadata := .processMappings [], cleanup := [], flags := 0,
    little_endian := true, word_size := 4 }

/-- A program carrying an out-of-range word size 7, used by witnesses. -/
def sampleProgram7 : drgn_program :=
  { reader := 0, tindex := 0, sindex := 0,
    metadata := .processMappings [], cleanup := [], flags := 0,
    little_endian := true, word_size := 7 }

/-- A kernel-target program with the target-kind bit set, used by
witnesses. -/
def sampleKernelProgram : drgn_program :=
  { reader := 0, tindex := 0, sindex := 0,
    metadata := .kernelInfo ⟨[], 0⟩, cleanup := [], flags := 1,
    little_endian := true, word_size := 8 }

/-- A program whose chain holds three entries, used by witnesses. -/
def sampleChainProgram : drgn_program :=
  { reader := 0, tindex := 0, sindex := 0,
    metadata := .processMappings [], cleanup := [⟨1, 10⟩, ⟨2, 20⟩, ⟨1, 10⟩],
    flags := 0, little_endian := true, word_size := 8 }

/-- The userspace program of claim C7: one mapping of the file a covering
the half-open address range from 0x1000 to 0x2000 at file offset 0. -/
def userProgramA : drgn_program :=
  { reader := 0, tindex := 0, sindex := 0,
    metadata := .processMappings [⟨"a", 0, 0x1000, 0x2000, 0⟩],
    cleanup := [], flags := 0, little_endian := true, word_size := 8 }

/-! Helper lemmas shared by the claim theorems. -/

/-- The deinit walk invokes exactly the chain entries, front to back. -/
theorem run_all_and_clear_trace_eq (l : List drgn_cleanup) :
    run_all_and_clear_trace l = l := by
  induction l with
  | nil => rfl
  | cons c rest ih => simp [run_all_and_clear_trace, ih]

/-- Registering a sequence of cleanups prepends their entries in reverse. -/
theorem add_cleanups_cleanup (regs : List (Nat × Nat)) (prog : drgn_program) :
    (add_cleanups prog regs).cleanup =
      (regs.map fun r => drgn_cleanup.mk r.1 r.2).reverse ++ prog.cleanup := by
  induction regs generalizing prog with
  | nil => simp [add_cleanups]
  | cons r rest ih =>
      simp [add_cleanups, ih, drgn_program_add_cleanup]

/-- A non-matching entry makes the comparison of the chain walk false. -/
theorem cleanup_beq_false (c : drgn_cleanup) (cb arg : Nat)
    (hc : ¬(c.cb = cb ∧ c.arg = arg)) :
    (c.cb == cb && c.arg == arg) = false := by
  by_cases h1 : c.cb = cb
  · have h2 : ¬c.arg = arg := fun h2 => hc ⟨h1, h2⟩
    simp [h1, h2]
  · simp [h1]

/-- The chain walk returns false and the chain unchanged when nothing
matches. -/
theorem remove_cleanup_chain_none (l : List drgn_cleanup) (cb arg : Nat)
    (h : ∀ c ∈ l, ¬(c.cb = cb ∧ c.arg = arg)) :
    remove_cleanup_chain l cb arg = (false, l) := by
  induction l with
  | nil => rfl
  | cons c rest ih =>
      have hcond := cleanup_beq_false c cb arg (h c (by simp))
      have ih2 := ih fun c2 hc2 => h c2 (by simp [hc2])
      simp [remove_cleanup_chain, hcond, ih2]

/-- The chain walk removes exactly the first matching entry. -/
theorem remove_cleanup_chain_found (pre post : List drgn_cleanup)
    (e : drgn_cleanup) (cb arg : Nat)
    (hpre : ∀ c ∈ pre, ¬(c.cb = cb ∧ c.arg = arg))
    (hcb : e.cb = cb) (harg : e.arg = arg) :
    remove_cleanup_chain (pre ++ e :: post) cb arg = (true, pre ++ post) := by
  induction pre with
  | nil => simp [remove_cleanup_chain, hcb, harg]
  | cons c rest ih =>
      have hcond := cleanup_beq_false c cb arg (hpre c (by simp))
      have ih2 := ih fun c2 hc2 => hpre c2 (by simp [hc2])
      simp [remove_cleanup_chain, hcond, ih2]

/-! The claim theorems. -/

/-- C1: for every successfully initialized program — whose word size the
specification fixes to 4 or 8 — the word size is in that set and
drgn_program_word_mask equals 2 ^ (8 * word_size) - 1, that is UINT32_MAX for
word size 4 and UINT64_MAX for word size 8. -/
theorem C1_word_mask_matches_word_size (prog : drgn_program)
    (h : drgn_program_word_size prog = 4 ∨ drgn_program_word_size prog = 8) :
    (drgn_program_word_size prog = 4 ∨ drgn_program_word_size prog = 8) ∧
    drgn_program_word_mask prog = 2 ^ (8 * drgn_program_word_size prog) - 1 ∧
    (drgn_program_word_size prog = 4 →
      drgn_program_word_mask prog = UINT32_MAX) ∧
    (drgn_program_word_size prog = 8 →
      drgn_program_word_mask prog = UINT64_MAX) := by
  refine ⟨h, ?_, ?_, ?_⟩
  · rcases h with h | h <;>
      simp [drgn_program_word_mask, h, UINT32_MAX, UINT64_MAX]
  · intro h4
    simp [drgn_program_word_mask, h4, UINT32_MAX]
  · intro h8
    simp [drgn_program_word_mask, h8, UINT64_MAX]

/-- Witness for C1 at the concrete word size 4. -/
theorem C1_word_mask_matches_word_size_witness :
    drgn_program_word_mask sampleProgram4 =
      2 ^ (8 * drgn_program_word_size sampleProgram4) - 1 :=
  (C1_word_mask_matches_word_size sampleProgram4 (Or.inl rfl)).2.1

/-- C4: remove_cleanup right after a successful add_cleanup with the same
callback and argument returns true and restores the program exactly. -/
theorem C4_remove_after_add_round_trip (prog : drgn_program) (cb arg : Nat) :
    drgn_program_remove_cleanup (drgn_program_add_cleanup prog cb arg)
      cb arg = (true, prog) := by
  simp [drgn_program_add_cleanup, drgn_program_remove_cleanup,
    remove_cleanup_chain]

/-- C7: with the single mapping of file a covering the half-open range from
0x1000 to 0x2000 at file offset 0, the lookup at 0x1500 resolves to a at
in-mapping offset 0x500, and the lookup at 0x3000 is an explicit not-found
absence rather than a failure. -/
theorem C7_mapping_lookup_example :
    drgn_program_find_mapping userProgramA 0x1500 = some ("a", 0x500) ∧
    drgn_program_find_mapping userProgramA 0x3000 = none := by
  constructor <;> rfl

/-- C8: the stored osrelease never exceeds the 128-byte buffer: it has length
at most OSRELEASE_SIZE and is an initial segment of the input, so a long
value is truncated and nothing is written past the end of the buffer. -/
theorem C8_osrelease_store_bounded (s : List Char) :
    (store_osrelease s).length ≤ OSRELEASE_SIZE ∧
    ∃ rest, store_osrelease s ++ rest = s := by
  constructor
  · simp [store_osrelease]
  · exact ⟨s.drop OSRELEASE_SIZE, List.take_append_drop _ _⟩

/-- C9: drgn_program_word_mask is total — it has no error branch — and
returns UINT32_MAX for every word size other than 8, including sizes outside
the documented set. -/
theorem C9_word_mask_total_default (prog : drgn_program)
    (h : drgn_program_word_size prog ≠ 8) :
    drgn_program_word_mask prog = UINT32_MAX := by
  simp [drgn_program_word_mask, h]

/-- Witness for C9 at the concrete out-of-range word size 7. -/
theorem C9_word_mask_total_default_witness :
    drgn_program_word_mask sampleProgram7 = UINT32_MAX :=
  C9_word_mask_total_default sampleProgram7 (by decide)

/-- C10: a successful add_cleanup pushes one entry whose next link is the
previous chain head and changes nothing else — reader, type index, symbol
index, metadata, flags, endianness and word size are untouched, and every
previously registered entry is kept unchanged as the tail. -/
theorem C10_add_cleanup_frame (prog : drgn_program) (cb arg : Nat) :
    (drgn_program_add_cleanup prog cb arg).cleanup =
      ⟨cb, arg⟩ :: prog.cleanup ∧
    (drgn_program_add_cleanup prog cb arg).reader = prog.reader ∧
    (drgn_program_add_cleanup prog cb arg).tindex = prog.tindex ∧
    (drgn_program_add_cleanup prog cb arg).sindex = prog.sindex ∧
    (drgn_program_add_cleanup prog cb arg).metadata = prog.metadata ∧
    (drgn_program_add_cleanup prog cb arg).flags = prog.flags ∧
    (drgn_program_add_cleanup prog cb arg).little_endian =
      prog.little_endian ∧
    (drgn_program_add_cleanup prog cb arg).word_size = prog.word_size :=
  ⟨rfl, rfl, rfl, rfl, rfl, rfl, rfl, rfl⟩

/-- C2: registering a sequence of cleanups on a program with an empty chain
and then deinitializing invokes exactly the registered entries in reverse
registration order, hence each exactly once (the invocation counts agree with
the registration counts), and deinitializing with an empty chain invokes no
callback. -/
theorem C2_deinit_reverse_order (prog : drgn_program) (h : prog.cleanup = [])
    (regs : List (Nat × Nat)) :
    (drgn_program_deinit (add_cleanups prog regs)).1 =
      (regs.map fun r => drgn_cleanup.mk r.1 r.2).reverse ∧
    (∀ c, ((drgn_program_deinit (add_cleanups prog regs)).1).count c =
      (regs.map fun r => drgn_cleanup.mk r.1 r.2).count c) ∧
    (drgn_program_deinit prog).1 = [] := by
  refine ⟨?_, ?_, ?_⟩
  · simp [drgn_program_deinit, run_all_and_clear_trace_eq,
      add_cleanups_cleanup, h]
  · intro c
    simp [drgn_program_deinit, run_all_and_clear_trace_eq,
      add_cleanups_cleanup, h]
  · simp [drgn_program_deinit, run_all_and_clear_trace_eq, h]

/-- Witness for C2 at a concrete two-entry registration sequence. -/
theorem C2_deinit_reverse_order_witness :
    (drgn_program_deinit (add_cleanups sampleProgram4 [(1, 10), (2, 20)])).1 =
      [⟨2, 20⟩, ⟨1, 10⟩] ∧
    (drgn_program_deinit sampleProgram4).1 = [] := by
  have h := C2_deinit_reverse_order sampleProgram4 rfl [(1, 10), (2, 20)]
  exact ⟨h.1.trans (by decide), h.2.2⟩

/-- C3: remove_cleanup returns true and removes exactly the most recently
registered matching entry when one exists — every entry nearer the head,
none of which matches, and every entry behind it stay present in order — and
returns the boolean false with the chain unchanged when no entry matches, a
plain absence rather than an error. -/
theorem C3_remove_cleanup_semantics (prog : drgn_program) (cb arg : Nat) :
    ((∀ c ∈ prog.cleanup, ¬(c.cb = cb ∧ c.arg = arg)) →
      drgn_program_remove_cleanup prog cb arg = (false, prog)) ∧
    (∀ pre e post, prog.cleanup = pre ++ e :: post →
      (∀ c ∈ pre, ¬(c.cb = cb ∧ c.arg = arg)) →
      e.cb = cb → e.arg = arg →
      drgn_program_remove_cleanup prog cb arg =
        (true, { prog with cleanup := pre ++ post })) := by
  constructor
  · intro h
    have hnone := remove_cleanup_chain_none prog.cleanup cb arg h
    simp [drgn_program_remove_cleanup, hnone]
  · intro pre e post hchain hpre hcb harg
    have hfound := remove_cleanup_chain_found pre post e cb arg hpre hcb harg
    simp [drgn_program_remove_cleanup, hchain, hfound]

/-- Witness for C3 on a concrete three-entry chain: removing the present pair
(2, 20) and looking for the absent pair (3, 30). -/
theorem C3_remove_cleanup_semantics_witness :
    drgn_program_remove_cleanup sampleChainProgram 2 20 =
      (true, { sampleChainProgram with cleanup := [⟨1, 10⟩, ⟨1, 10⟩] }) ∧
    drgn_program_remove_cleanup sampleChainProgram 3 30 =
      (false, sampleChainProgram) := by
  constructor
  · exact (C3_remove_cleanup_semantics sampleChainProgram 2 20).2
      [⟨1, 10⟩] ⟨2, 20⟩ [⟨1, 10⟩] rfl (by decide) rfl rfl
  · exact (C3_remove_cleanup_semantics sampleChainProgram 3 30).1 (by decide)

/-- C5: a program holds exactly one metadata variant at a time — the kernel
and userspace variant predicates always disagree — the variant held is the
one selected by the kernel target-kind bit of flags whenever the program is
well formed, and the cleanup operations and deinit leave the metadata
untouched, so none of them can make both variants valid. -/
theorem C5_metadata_exclusive (prog : drgn_program) (h : wf_metadata prog) :
    prog.metadata.isKernelInfo = !prog.metadata.isProcessMappings ∧
    prog.metadata.isKernelInfo = drgn_program_is_kernel prog ∧
    (∀ cb arg, (drgn_program_add_cleanup prog cb arg).metadata =
      prog.metadata) ∧
    (∀ cb arg, (drgn_program_remove_cleanup prog cb arg).2.metadata =
      prog.metadata) ∧
    (drgn_program_deinit prog).2.metadata = prog.metadata := by
  refine ⟨?_, h, fun cb arg => rfl, fun cb arg => rfl, rfl⟩
  cases prog.metadata <;>
    simp [target_metadata.isKernelInfo, target_metadata.isProcessMappings]

/-- Witness for C5 at a concrete well-formed kernel-target program. -/
theorem C5_metadata_exclusive_witness :
    sampleKernelProgram.metadata.isKernelInfo =
      !sampleKernelProgram.metadata.isProcessMappings ∧
    sampleKernelProgram.metadata.isKernelInfo =
      drgn_program_is_kernel sampleKernelProgram := by
  have h := C5_metadata_exclusive sampleKernelProgram (by decide)
  exact ⟨h.1, h.2.1⟩

/-- A run with no failing step succeeds with every resource field populated
and every acquired cleanup on the chain, most recent first. -/
theorem run_init_steps_success (res : init_resources) (steps : List init_step)
    (chain : List drgn_cleanup) (h : ∀ e, init_step.fail e ∉ steps) :
    run_init_steps res chain steps = .success
      { reader := res.reader, tindex := res.tindex, sindex := res.sindex,
        metadata := res.metadata,
        cleanup := (acquired steps).reverse ++ chain, flags := res.flags,
        little_endian := res.little_endian, word_size := res.word_size } := by
  induction steps generalizing chain with
  | nil => simp [run_init_steps, acquired]
  | cons s rest ih =>
      cases s with
      | acquire c =>
          have h2 : ∀ e, init_step.fail e ∉ rest :=
            fun e he => h e (by simp [he])
          simp [run_init_steps, acquired, ih _ h2, List.append_assoc]
      | fail e => exact absurd (List.mem_cons_self _ _) (h e)

/-- A run stopping at its first failing step reports that error and unwinds
exactly the chain built so far. -/
theorem run_init_steps_failure (res : init_resources)
    (pre rest : List init_step) (e : Nat) (chain : List drgn_cleanup)
    (h : ∀ e2, init_step.fail e2 ∉ pre) :
    run_init_steps res chain (pre ++ init_step.fail e :: rest) =
      .failure e ((acquired pre).reverse ++ chain) := by
  induction pre generalizing chain with
  | nil => simp [run_init_steps, acquired, run_all_and_clear_trace_eq]
  | cons s pre2 ih =>
      cases s with
      | acquire c =>
          have h2 : ∀ e2, init_step.fail e2 ∉ pre2 :=
            fun e2 he => h e2 (by simp [he])
          simp [run_init_steps, acquired, ih _ h2, List.append_assoc]
      | fail e2 => exact absurd (List.mem_cons_self _ _) (h e2)

/-- C6: an initializer run either fully succeeds — reader, type index,
symbol index, metadata, word size and endianness populated and every acquired
resource tracked on the cleanup chain, most recent first — or stops at its
first failing step, releases exactly the resources acquired before it through
the chain built so far in reverse acquisition order, and propagates the
original error unmodified; no part-way program is ever returned. -/
theorem C6_init_all_or_nothing (res : init_resources)
    (steps : List init_step) :
    ((∀ e, init_step.fail e ∉ steps) →
      drgn_program_init_generic res steps = .success
        { reader := res.reader, tindex := res.tindex, sindex := res.sindex,
          metadata := res.metadata, cleanup := (acquired steps).reverse,
          flags := res.flags, little_endian := res.little_endian,
          word_size := res.word_size }) ∧
    (∀ pre e rest, steps = pre ++ init_step.fail e :: rest →
      (∀ e2, init_step.fail e2 ∉ pre) →
      drgn_program_init_generic res steps =
        .failure e (acquired pre).reverse) := by
  constructor
  · intro h
    have hs := run_init_steps_success res steps [] h
    simpa [drgn_program_init_generic] using hs
  · intro pre e rest hsteps hpre
    have hf := run_init_steps_failure res pre rest e [] hpre
    simpa [drgn_program_init_generic, hsteps] using hf

/-- The concrete resource record used by the C6 witness. -/
def sampleResources : init_resources :=
  { reader := 1, tindex := 2, sindex := 3,
    metadata := .processMappings [], flags := 0,
    little_endian := true, word_size := 8 }

/-- Witness for C6: a two-acquisition run that succeeds and a run whose
second step fails with error 7 after one acquisition. -/
theorem C6_init_all_or_nothing_witness :
    drgn_program_init_generic sampleResources
        [init_step.acquire ⟨1, 10⟩, init_step.acquire ⟨2, 20⟩] =
      init_outcome.success
        { reader := 1, tindex := 2, sindex := 3,
          metadata := .processMappings [],
          cleanup := (acquired [init_step.acquire ⟨1, 10⟩,
            init_step.acquire ⟨2, 20⟩]).reverse,
          flags := 0, little_endian := true, word_size := 8 } ∧
    drgn_program_init_generic sampleResources
        [init_step.acquire ⟨1, 10⟩, init_step.fail 7,
          init_step.acquire ⟨2, 20⟩] =
      init_outcome.failure 7 (acquired [init_step.acquire ⟨1, 10⟩]).reverse := by
  constructor
  · exact (C6_init_all_or_nothing sampleResources _).1 (by simp)
  · exact (C6_init_all_or_nothing sampleResources _).2
      [init_step.acquire ⟨1, 10⟩] 7 [init_step.acquire ⟨2, 20⟩] rfl (by simp)

end Drgn
